import Mathlib

/-!
Shallow embedding of the tick-ingestion worker (`app/worker/worker.py`) and
the Redis read helper of the dashboard (`app/app_docker.py`).

Modelling conventions:
* Python values that flow through `msg.get`, `or`, `float()` and `int()` are
  modelled by `PyVal` (`None`, numbers as exact rationals, strings).
  Python floats are modelled as exact rationals: none of the verified
  properties depends on binary-float rounding.
* Redis is modelled as `Store`: a map from string keys to an optional
  latest payload and to a list of payloads per list key, plus a `log`
  history variable recording every successfully published payload in
  publication order.  `SET`/`LPUSH`/`LTRIM` on an unreachable store raise;
  this is modelled by the `avail : Bool` argument of `publish_tick`
  (`False` makes the store calls fail with `StoreUnavailable`).
* JSON serialisation (`json.dumps` / `json.loads`) is the identity at this
  level of abstraction: the store holds `Payload` records directly.
* `datetime.utcnow().isoformat()` is an ambient input; it is passed in as
  the string parameter `now`, and the code appends `"Z"` to it.
* The global PRNG (`random.random`, `random.uniform`, `random.randint`) is
  modelled as one shared stream `draw : Nat -> Rat` of values in `[0,1)`
  together with a cursor `idx` into it; each library call consumes one
  stream element, mirroring the fact that all symbols draw from the single
  module-level generator.
-/

deriving instance DecidableEq for Except

/-- Python value as it flows through the worker's message handling:
`None`, a number (int or float, modelled as an exact rational), or a
string. -/
inductive PyVal where
  | none
  | num (q : ℚ)
  | str (s : String)
deriving DecidableEq, Repr

/-- Python truthiness, used by the `a or b` chains in `on_message`:
`None`, `0`, `0.0` and `""` are falsy. -/
def PyVal.truthy : PyVal → Bool
  | .none => false
  | .num q => q != 0
  | .str s => s != ""

/-- Python `a or b`: `a` if truthy, else `b`. -/
def pyOr (a b : PyVal) : PyVal :=
  if a.truthy then a else b

/-- Digit-string to natural number; `Option.none` when empty or not all digits. -/
def digitsToNat (cs : List Char) : Option Nat :=
  if cs.isEmpty then Option.none
  else if cs.all Char.isDigit then
    Option.some (cs.foldl (fun a c => a * 10 + (c.toNat - 48)) 0)
  else Option.none

/-- Python `str.strip()` on a character list: remove leading and trailing
whitespace. -/
def stripChars (cs : List Char) : List Char :=
  ((cs.dropWhile Char.isWhitespace).reverse.dropWhile Char.isWhitespace).reverse

/-- Python `float(s)` on a string, for plain decimal forms
(optional sign, digits, optional fractional part; surrounding whitespace
is stripped).  Exponent, `inf` and `nan` forms are not exercised by the
worker and are not modelled. -/
def parseFloatStr (s : String) : Option ℚ :=
  let cs := stripChars s.data
  let sg : ℚ := match cs with
    | '-' :: _ => -1
    | _ => 1
  let body : List Char := match cs with
    | '-' :: rest => rest
    | '+' :: rest => rest
    | _ => cs
  let ip := body.takeWhile Char.isDigit
  let rest := body.dropWhile Char.isDigit
  match rest with
  | [] =>
    match digitsToNat ip with
    | Option.some n => Option.some (sg * n)
    | Option.none => Option.none
  | '.' :: fr =>
    if fr.all Char.isDigit && !(ip.isEmpty && fr.isEmpty) then
      let ipv : Nat := ip.foldl (fun a c => a * 10 + (c.toNat - 48)) 0
      let frv : Nat := fr.foldl (fun a c => a * 10 + (c.toNat - 48)) 0
      Option.some (sg * ((ipv : ℚ) + (frv : ℚ) / ((10 : ℚ) ^ fr.length)))
    else Option.none
  | _ => Option.none

/-- Python `int(s)` on a string (optional sign, digits; surrounding
whitespace is stripped). -/
def parseIntStr (s : String) : Option ℤ :=
  let cs := stripChars s.data
  let sg : ℤ := match cs with
    | '-' :: _ => -1
    | _ => 1
  let body : List Char := match cs with
    | '-' :: rest => rest
    | '+' :: rest => rest
    | _ => cs
  match digitsToNat body with
  | Option.some n => Option.some (sg * n)
  | Option.none => Option.none

/-- Python `float(v)`: numbers pass through, decimal strings parse,
everything else raises (`Except.error`). -/
def pyFloat : PyVal → Except String ℚ
  | .num q => .ok q
  | .str s =>
    match parseFloatStr s with
    | Option.some q => .ok q
    | Option.none => .error "ValueError: could not convert string to float"
  | .none => .error "TypeError: float() argument is None"

/-- Truncation toward zero, as Python `int()` applied to a float. -/
def truncQ (q : ℚ) : ℤ :=
  if 0 ≤ q then ⌊q⌋ else ⌈q⌉

/-- Python `int(v)`: numbers truncate toward zero, integer strings parse,
everything else raises (`Except.error`). -/
def pyInt : PyVal → Except String ℤ
  | .num q => .ok (truncQ q)
  | .str s =>
    match parseIntStr s with
    | Option.some n => .ok n
    | Option.none => .error "ValueError: invalid literal for int"
  | .none => .error "TypeError: int() argument is None"

/-- Python `str(v)`, as used to build the Redis keys `latest:...` and
`ticks:...` from the symbol value. -/
def pyStrOf : PyVal → String
  | .none => "None"
  | .num q => toString q
  | .str s => s

/-- The JSON payload `publish_tick` writes to Redis:
symbol, float price, int size, timestamp string, event type. -/
structure Payload where
  symbol : PyVal
  price : ℚ
  size : ℤ
  ts : String
  type : String
deriving DecidableEq, Repr

/-- The Redis state visible to the worker: the value at each `latest:...`
key, the list at each `ticks:...` key, and a history variable `log`
recording every successfully published payload in publication order. -/
structure Store where
  latest : String → Option Payload
  ticks : String → List Payload
  log : List Payload

/-- A store with no keys set and an empty publication history. -/
def emptyStore : Store :=
  { latest := fun _ => Option.none, ticks := fun _ => [], log := [] }

/-- Extract the store from an `Except` result, defaulting on error.
Used only to name concrete post-states in closed statements. -/
def okOr (d : Store) : Except String Store → Store
  | .ok s => s
  | .error _ => d

/-- Redis `LTRIM key start stop` on a list: keeps the elements from
`start` to `stop` inclusive; negative indexes count from the end
(`-1` is the last element); out-of-range indexes are clamped; an empty
range empties the list. -/
def ltrim (l : List α) (start stop : Int) : List α :=
  let n : Int := l.length
  let s := max (if start < 0 then n + start else start) 0
  let e := min (if stop < 0 then n + stop else stop) (n - 1)
  if s > e then [] else (l.drop s.toNat).take (e - s + 1).toNat

/-- The Redis key `latest:...` for a symbol value. -/
def latestKey (sym : PyVal) : String := "latest:" ++ pyStrOf sym

/-- The Redis key `ticks:...` for a symbol value. -/
def tickKey (sym : PyVal) : String := "ticks:" ++ pyStrOf sym

/-- The store writes of a successful `publish_tick` on `worker.py` lines
39-41: `SET latest:..` to the payload, `LPUSH ticks:..` of the payload,
`LTRIM ticks:.. 0 cap-1`; the payload also enters the publication
history.  The timestamp is `now` with `"Z"` appended. -/
def publishedStore (cap : Nat) (now : String) (sym : PyVal) (p : ℚ) (sz : ℤ)
    (ev_type : String) (st : Store) : Store :=
  let payload : Payload := ⟨sym, p, sz, now ++ "Z", ev_type⟩
  { latest := fun k =>
      if k = latestKey sym then Option.some payload else st.latest k
  , ticks := fun k =>
      if k = tickKey sym then
        ltrim (payload :: st.ticks (tickKey sym)) 0 ((cap : Int) - 1)
      else st.ticks k
  , log := st.log ++ [payload] }

/-- `publish_tick(sym, price, size=1, ev_type="T")` from `worker.py`:
builds the payload (`float(price)` and `int(size)` may raise), then
performs the store writes of `publishedStore`.  The store calls raise
`StoreUnavailable` when the store is unreachable (`avail = false`). -/
def publish_tick (cap : Nat) (now : String) (avail : Bool)
    (sym price size : PyVal) (ev_type : String) (st : Store) :
    Except String Store :=
  match pyFloat price with
  | .error e => .error e
  | .ok p =>
    match pyInt size with
    | .error e => .error e
    | .ok sz =>
      if avail then
        .ok (publishedStore cap now sym p sz ev_type st)
      else
        .error "StoreUnavailable"

/-- `round(x, 2)` from the simulator: round to two decimal places.
`round` is Mathlib's round-half-up on exact rationals; Python rounds the
nearest binary double half-to-even, which agrees away from exact
half-cent ties (none of the verified inputs is a tie). -/
def round2 (q : ℚ) : ℚ :=
  ((round (q * 100) : ℤ) : ℚ) / 100

/-- The mutable state of `simulate_ticks`: the `base` dict mapping each
symbol to its running (unrounded) price, in insertion order, and the
cursor `idx` of the next unconsumed element of the shared PRNG stream. -/
structure SimState where
  base : List (String × ℚ)
  idx : Nat
deriving DecidableEq, Repr

/-- `base[s] = v`: update the entry for `s`, or append it (Python dict
insertion order). -/
def setBase (b : List (String × ℚ)) (s : String) (v : ℚ) : List (String × ℚ) :=
  match b with
  | [] => [(s, v)]
  | (k, x) :: rest => if k = s then (k, v) :: rest else (k, x) :: setBase rest s v

/-- `base[s]` lookup.  In the source a missing key would raise `KeyError`;
after `initBase` every watchlist symbol is present, so the default `0`
branch is never taken on the executions modelled here. -/
def getBase (b : List (String × ℚ)) (s : String) : ℚ :=
  match b with
  | [] => 0
  | (k, x) :: rest => if k = s then x else getBase rest s

/-- The initialisation loop of `simulate_ticks`:
`base[s] = 100.0 + random.random()*100` for each watchlist symbol, in
watchlist order; each `random.random()` call consumes one stream element. -/
def initBase (draw : Nat → ℚ) (watch : List String) : SimState :=
  watch.foldl (fun σ s => ⟨setBase σ.base s (100 + draw σ.idx * 100), σ.idx + 1⟩)
    ⟨[], 0⟩

/-- One loop body iteration of `simulate_ticks` for one symbol:
`change_pct = random.uniform(-0.01, 0.01)` (one stream element),
`new = last * (1 + change_pct)`, `base[s] = new`, then
`publish_tick(s, round(new, 2), size=random.randint(1,100))` (the
`randint` consumes one further stream element; `randint(1,100)` is
modelled as `1 + floor(d*100)` for a stream element `d` in `[0,1)`). -/
def simSym (cap : Nat) (draw : Nat → ℚ) (now : String) (av : Bool) (s : String)
    (σ : SimState) (st : Store) : Except String (SimState × Store) :=
  let last := getBase σ.base s
  let change_pct := -(1/100 : ℚ) + draw σ.idx * (2/100)
  let new := last * (1 + change_pct)
  let size : ℚ := 1 + (⌊draw (σ.idx + 1) * 100⌋ : ℤ)
  let σ2 : SimState := ⟨setBase σ.base s new, σ.idx + 2⟩
  match publish_tick cap now av (.str s) (.num (round2 new)) (.num size) "T" st with
  | .error e => .error e
  | .ok st2 => .ok (σ2, st2)

/-- The inner `for s in WATCHLIST` loop of one simulator round.  An
exception from `publish_tick` propagates: the remaining symbols of the
round are not processed. -/
def simRound (cap : Nat) (draw : Nat → ℚ) (now : String) (av : Bool) :
    List String → SimState → Store → Except String (SimState × Store)
  | [], σ, st => .ok (σ, st)
  | s :: rest, σ, st =>
    match simSym cap draw now av s σ st with
    | .error e => .error e
    | .ok (σ2, st2) => simRound cap draw now av rest σ2 st2

/-- `k` rounds of the `while True` loop, starting at round number `i`
(the store's availability may differ per round: round `j` sees
`avail j`).  An exception from any round propagates and ends the run. -/
def simRunAux (cap : Nat) (draw : Nat → ℚ) (now : String) (avail : Nat → Bool)
    (watch : List String) :
    Nat → Nat → SimState → Store → Except String (SimState × Store)
  | _, 0, σ, st => .ok (σ, st)
  | i, k + 1, σ, st =>
    match simRound cap draw now (avail i) watch σ st with
    | .error e => .error e
    | .ok (σ2, st2) => simRunAux cap draw now avail watch (i + 1) k σ2 st2

/-- `simulate_ticks` from `worker.py`, observed for `k` rounds of its
(endless) `while True` loop: initialise `base`, then run the rounds.
`.ok` means the loop was still running after `k` rounds; `.error` means
an exception escaped the loop (in the process, this is a crash). -/
def simulate_ticks (cap : Nat) (draw : Nat → ℚ) (now : String)
    (avail : Nat → Bool) (watch : List String) (k : Nat) :
    Except String (SimState × Store) :=
  simRunAux cap draw now avail watch 0 k (initBase draw watch) emptyStore

/-- A store that is reachable in every round. -/
def availTrue : Nat → Bool := fun _ => true

/-- The sequence of prices published for one symbol during a run
(empty when the run ended in an exception). -/
def pricesFor (sym : String) (e : Except String (SimState × Store)) : List ℚ :=
  match e with
  | .error _ => []
  | .ok (_, st) =>
    (st.log.filter (fun p => decide (p.symbol = PyVal.str sym))).map Payload.price

/-- A raw provider event object, with the fields `on_message` reads
(`ev`, `sym`, `ticker`, `p`, `price`, `s`, `size`) and the
provider-supplied timestamp field `t`, which the handler never reads.
A field missing from the JSON object is `PyVal.none` (what `msg.get`
returns). -/
structure RawMsg where
  ev : PyVal
  sym : PyVal
  ticker : PyVal
  p : PyVal
  price : PyVal
  s : PyVal
  size : PyVal
  t : PyVal
deriving DecidableEq, Repr

/-- One element of an inbound JSON array: a JSON object (dict), or
anything else (on which `msg.get` would raise `AttributeError`). -/
inductive Elem where
  | dictE (m : RawMsg)
  | nonDict

/-- The result of `json.loads` on an inbound frame: a JSON array, a dict
or other non-array value (discarded), or unparseable input (the raised
error is caught by the handler's `except`). -/
inductive InboundMsg where
  | arr (msgs : List Elem)
  | obj
  | malformed

/-- The `for msg in data` loop of `on_message`: each `"T"` event is
published; a non-dict element or a failing publish raises, and the
exception is caught by the surrounding `except` of `on_message`, so the
rest of the array is abandoned and the store keeps the writes made so
far. -/
def processList (cap : Nat) (now : String) (av : Bool) :
    Store → List Elem → Store
  | st, [] => st
  | st, .nonDict :: _ => st
  | st, .dictE m :: rest =>
    if m.ev = PyVal.str "T" then
      match publish_tick cap now av (pyOr m.sym m.ticker) (pyOr m.p m.price)
          (pyOr (pyOr m.s m.size) (.num 1)) "T" st with
      | .ok st2 => processList cap now av st2 rest
      | .error _ => st
    else
      processList cap now av st rest

/-- `on_message(ws, message)` from `worker.py`: parse the frame; iterate
arrays, publishing each `"T"` event; ignore dicts and other non-arrays;
any exception (parse failure, bad element, bad price, store failure) is
caught and logged, leaving the store as it was at the failure point. -/
def on_message (cap : Nat) (now : String) (av : Bool) (st : Store) :
    InboundMsg → Store
  | .arr msgs => processList cap now av st msgs
  | .obj => st
  | .malformed => st

/-- Replace the provider-supplied timestamp field of an event by `None`
(used to state that `on_message` never reads it). -/
def eraseTs (m : RawMsg) : RawMsg :=
  { m with t := .none }

/-- `eraseTs` lifted to array elements. -/
def eraseTsElem : Elem → Elem
  | .dictE m => .dictE (eraseTs m)
  | .nonDict => .nonDict

/-- One outbound WebSocket control message
(`ws.send(json.dumps(...))` payload): an action and its params. -/
structure WsOut where
  action : String
  params : String
deriving DecidableEq, Repr

/-- `on_open(ws)` from `worker.py`, as the ordered trace of messages it
sends: first the auth message with the credential, then, for each
watchlist symbol in order, one subscribe message for the `T.` trade
channel of that symbol. -/
def on_open (polyKey : String) (watch : List String) : List WsOut :=
  ⟨"auth", polyKey⟩ :: watch.map (fun s => ⟨"subscribe", "T." ++ s⟩)

/-- The module-level supervisor branch of `worker.py`.  `polyKey` is
`POLYGON_API_KEY`; `liveOutcome` is how the live-client block ends
(`.error` when `import websocket`, the connection, or `run_forever`
raises; `.ok` when `run_forever` returns after a graceful close).
Result: the number of live-connection attempts made, and, when the
simulator runs (directly or as fallback), its run observed for `k`
rounds.  The `except` branch calls `simulate_ticks()` and never returns
to the live path. -/
def worker_main (cap : Nat) (draw : Nat → ℚ) (now : String)
    (avail : Nat → Bool) (watch : List String) (polyKey : Option String)
    (liveOutcome : Except String Unit) (k : Nat) :
    Nat × Option (Except String (SimState × Store)) :=
  match polyKey with
  | Option.none => (0, Option.some (simulate_ticks cap draw now avail watch k))
  | Option.some _ =>
    match liveOutcome with
    | .ok _ => (1, Option.none)
    | .error _ => (1, Option.some (simulate_ticks cap draw now avail watch k))

/-- Python `str.upper()` (ASCII), as used on the watchlist symbols and in
the dashboard's key construction. -/
def pyUpper (s : String) : String :=
  ⟨s.data.map Char.toUpper⟩

/-- Python `str.strip()` on a string. -/
def pyStrip (s : String) : String :=
  ⟨stripChars s.data⟩

/-- `get_latest_from_redis(symbol)` from `app_docker.py`: read the JSON
value at `latest:` followed by the upper-cased symbol; `None` when the
key is absent. -/
def get_latest_from_redis (st : Store) (symbol : String) : Option Payload :=
  st.latest ("latest:" ++ pyUpper symbol)

/-- A sequence of `publish_tick` calls for one symbol with numeric prices
and sizes, as the simulated feed or a well-formed live stream performs
them; stops at the first exception. -/
def publishSeq (cap : Nat) (now : String) (sym : String) :
    Store → List (ℚ × ℤ) → Except String Store
  | st, [] => .ok st
  | st, (pr, sz) :: rest =>
    match publish_tick cap now true (.str sym) (.num pr) (.num (sz : ℚ)) "T" st with
    | .error e => .error e
    | .ok st2 => publishSeq cap now sym st2 rest

/-- The payload a successful `publish_tick(sym, pr, sz, "T")` at time
`now` writes. -/
def payloadOf (now sym : String) (it : ℚ × ℤ) : Payload :=
  ⟨.str sym, it.1, truncQ ((it.2 : ℚ)), now ++ "Z", "T"⟩

/-- A well-formed trade event: type `"T"`, numeric price, numeric size. -/
def goodTrade : RawMsg :=
  ⟨.str "T", .str "AAPL", .none, .num 101, .none, .num 3, .none, .none⟩

/-- A trade event with a missing price (`p` and `price` both absent):
`float(None)` raises inside `publish_tick`. -/
def badTrade : RawMsg :=
  ⟨.str "T", .str "MSFT", .none, .none, .none, .none, .none, .none⟩

/-- A trade event whose provider symbol has lower-case letters and
surrounding whitespace. -/
def lowerMsg : RawMsg :=
  ⟨.str "T", .str " aapl", .none, .num 105, .none, .none, .none, .none⟩

/-- A concrete PRNG stream: the second element is `1/2`, all others `0`. -/
def demoDraw : Nat → ℚ := fun n => if n = 1 then 1/2 else 0

/-- Concrete post-state of one successful publish (used in closed
statements). -/
def demoPub : Store :=
  okOr emptyStore (publish_tick 200 "2024-01-01T00:00:00" true (.str "AAPL")
    (.num 101) (.num 5) "T" emptyStore)

/-- Concrete post-state of one successful publish with an in-message
timestamp-free comparison (used in closed statements). -/
def demoPub10 : Store :=
  okOr emptyStore (publish_tick 3 "2024-02-02T00:00:00" true (.str "TSLA")
    (.num 250) (.num 2) "T" emptyStore)

/-- Concrete post-state of publishing one tick. -/
def demoSt1 : Store :=
  okOr emptyStore (publish_tick 7 "t0" true (.str "AAPL") (.num 101)
    (.num ((5 : ℤ) : ℚ)) "T" emptyStore)

/-- Concrete post-state of publishing the same tick a second time. -/
def demoSt2 : Store :=
  okOr emptyStore (publish_tick 7 "t0" true (.str "AAPL") (.num 101)
    (.num ((5 : ℤ) : ℚ)) "T" demoSt1)

/-- The Recent-Ticks Window obtained by pushing each payload in turn onto
a window `w`, trimming to `cap` after each push (specification-side
recursion used to reason about `publishSeq`). -/
def windowAfter (cap : Nat) (w : List Payload) : List Payload → List Payload
  | [] => w
  | pl :: rest => windowAfter cap ((pl :: w).take cap) rest

theorem truncQ_intCast (n : ℤ) : truncQ ((n : ℚ)) = n := by
  unfold truncQ
  split_ifs with h
  · exact_mod_cast Int.floor_intCast n
  · exact_mod_cast Int.ceil_intCast n

theorem ltrim_take {α : Type} (cap : Nat) (hcap : 1 ≤ cap) (l : List α) :
    ltrim l 0 ((cap : Int) - 1) = l.take cap := by
  simp only [ltrim]
  have h1 : ¬ ((0 : Int) < 0) := by omega
  have h2 : ¬ ((cap : Int) - 1 < 0) := by omega
  rw [if_neg h1, if_neg h2]
  cases l with
  | nil =>
    have : min ((cap : Int) - 1) (((List.length ([] : List α)) : Int) - 1) = -1 := by
      simp only [List.length_nil, Nat.cast_zero]
      omega
    rw [this]
    simp
  | cons x xs =>
    have hlen : ((List.length (x :: xs)) : Int) = (xs.length : Int) + 1 := by
      simp
    have hmax : max (0 : Int) 0 = 0 := by omega
    rw [hmax]
    have hmin : min ((cap : Int) - 1) (((List.length (x :: xs)) : Int) - 1)
        = ((min cap (xs.length + 1) : Nat) : Int) - 1 := by
      simp only [List.length_cons]
      omega
    rw [hmin]
    have hnotgt : ¬ ((0 : Int) > ((min cap (xs.length + 1) : Nat) : Int) - 1) := by
      have : 1 ≤ min cap (xs.length + 1) := by omega
      omega
    rw [if_neg hnotgt]
    have htoNat : (((min cap (xs.length + 1) : Nat) : Int) - 1 - 0 + 1).toNat
        = min cap (xs.length + 1) := by omega
    rw [htoNat]
    rw [Int.toNat_zero, List.drop_zero]
    rw [List.take_eq_take]
    simp only [List.length_cons]
    omega

theorem ltrim_keep_all {α : Type} (l : List α) : ltrim l 0 (-1 : Int) = l := by
  simp only [ltrim]
  have h1 : ¬ ((0 : Int) < 0) := by omega
  have h2 : (-1 : Int) < 0 := by omega
  rw [if_neg h1, if_pos h2]
  cases l with
  | nil => simp
  | cons x xs =>
    have hmax : max (0 : Int) 0 = 0 := by omega
    rw [hmax]
    have hmin : min (((List.length (x :: xs)) : Int) + -1)
        (((List.length (x :: xs)) : Int) - 1) = ((xs.length : Nat) : Int) := by
      simp only [List.length_cons]
      omega
    rw [hmin]
    have hnotgt : ¬ ((0 : Int) > ((xs.length : Nat) : Int)) := by omega
    rw [if_neg hnotgt]
    have htoNat : (((xs.length : Nat) : Int) - 0 + 1).toNat = xs.length + 1 := by
      omega
    rw [htoNat]
    rw [Int.toNat_zero, List.drop_zero]
    exact List.take_of_length_le (by simp)

theorem ltrim_cons_head {α : Type} (cap : Nat) (x : α) (l : List α) :
    (ltrim (x :: l) 0 ((cap : Int) - 1)).head? = Option.some x := by
  rcases Nat.eq_zero_or_pos cap with h | h
  · subst h
    rw [show ((0 : Nat) : Int) - 1 = -1 by norm_num, ltrim_keep_all]
    rfl
  · rw [ltrim_take cap h]
    cases cap with
    | zero => omega
    | succ n => simp

theorem eraseTs_ev (m : RawMsg) : (eraseTs m).ev = m.ev := rfl

theorem eraseTs_sym (m : RawMsg) : (eraseTs m).sym = m.sym := rfl

theorem eraseTs_ticker (m : RawMsg) : (eraseTs m).ticker = m.ticker := rfl

theorem eraseTs_p (m : RawMsg) : (eraseTs m).p = m.p := rfl

theorem eraseTs_price (m : RawMsg) : (eraseTs m).price = m.price := rfl

theorem eraseTs_s (m : RawMsg) : (eraseTs m).s = m.s := rfl

theorem eraseTs_size (m : RawMsg) : (eraseTs m).size = m.size := rfl

theorem take_append_take {α : Type} (n : Nat) (a b : List α) :
    (a ++ b.take n).take n = (a ++ b).take n := by
  rw [List.take_append_eq_append_take, List.take_append_eq_append_take,
    List.take_take]
  congr 1
  exact congrArg b.take (Nat.min_eq_left (Nat.sub_le n a.length))

theorem publish_tick_ok (cap : Nat) (now : String) (av : Bool)
    (sym price size : PyVal) (ev : String) (st st2 : Store)
    (h : publish_tick cap now av sym price size ev st = .ok st2) :
    ∃ p sz, pyFloat price = .ok p ∧ pyInt size = .ok sz ∧ av = true ∧
      st2 = publishedStore cap now sym p sz ev st := by
  unfold publish_tick at h
  cases hp : pyFloat price with
  | error e => rw [hp] at h; exact absurd h (by simp)
  | ok p =>
    rw [hp] at h
    cases hs : pyInt size with
    | error e => rw [hs] at h; exact absurd h (by simp)
    | ok sz =>
      rw [hs] at h
      cases av with
      | false => exact absurd h (by simp)
      | true =>
        simp only [if_true, Except.ok.injEq] at h
        exact ⟨p, sz, rfl, rfl, rfl, h.symm⟩

theorem publishedStore_latest (cap : Nat) (now : String) (sym : PyVal) (p : ℚ)
    (sz : ℤ) (ev : String) (st : Store) :
    (publishedStore cap now sym p sz ev st).latest (latestKey sym) =
      Option.some ⟨sym, p, sz, now ++ "Z", ev⟩ := by
  simp [publishedStore]

theorem publishedStore_ticks (cap : Nat) (now : String) (sym : PyVal) (p : ℚ)
    (sz : ℤ) (ev : String) (st : Store) :
    (publishedStore cap now sym p sz ev st).ticks (tickKey sym) =
      ltrim (⟨sym, p, sz, now ++ "Z", ev⟩ :: st.ticks (tickKey sym)) 0
        ((cap : Int) - 1) := by
  simp [publishedStore]

theorem publishedStore_log (cap : Nat) (now : String) (sym : PyVal) (p : ℚ)
    (sz : ℤ) (ev : String) (st : Store) :
    (publishedStore cap now sym p sz ev st).log =
      st.log ++ [⟨sym, p, sz, now ++ "Z", ev⟩] := rfl

/-- C7: on connection open, the Live Feed Client first sends exactly one
authentication message holding the credential, and then, for every
watchlist symbol in watchlist order, exactly one subscription message
for the trade channel `T.` of that symbol — one per symbol, not a single
bulk subscription. -/
theorem on_open_auth_then_subscribe (key : String) (watch : List String) :
    (on_open key watch).head? = Option.some ⟨"auth", key⟩ ∧
    (on_open key watch).tail = watch.map (fun s => ⟨"subscribe", "T." ++ s⟩) ∧
    (on_open key watch).length = 1 + watch.length ∧
    (on_open key watch).countP (fun m => m.action == "auth") = 1 := by
  refine ⟨rfl, rfl, by simp [on_open, Nat.add_comm], ?_⟩
  simp only [on_open, List.countP_cons, List.countP_map, Function.comp]
  have hz : List.countP (fun s => (("subscribe" : String) == "auth")) watch = 0 := by
    rw [List.countP_eq_zero]
    intro a _
    decide
  simp [hz]

/-- C4: with a provider credential configured and the live-client block
ending in an exception (at startup or mid-run), the supervisor makes
exactly one live attempt and then runs the simulated feed for the rest
of the observed process lifetime; the attempt count stays one for every
number of observed simulator rounds (no reconnection). -/
theorem supervisor_one_shot_fallback (cap : Nat) (draw : Nat → ℚ) (now : String)
    (avail : Nat → Bool) (watch : List String) (c e : String) (k : Nat) :
    worker_main cap draw now avail watch (Option.some c) (.error e) k =
      (1, Option.some (simulate_ticks cap draw now avail watch k)) := rfl

/-- C9: after every successful publish, the value at the symbol's
`latest:` key equals the head of the symbol's `ticks:` list. -/
theorem latest_eq_window_head (cap : Nat) (now : String) (av : Bool)
    (sym price size : PyVal) (ev : String) (st st2 : Store)
    (h : publish_tick cap now av sym price size ev st = .ok st2) :
    st2.latest (latestKey sym) = (st2.ticks (tickKey sym)).head? := by
  obtain ⟨p, sz, _, _, _, hst⟩ := publish_tick_ok cap now av sym price size ev st st2 h
  subst hst
  rw [publishedStore_latest, publishedStore_ticks, ltrim_cons_head]

/-- C9 witness: a concrete successful publish, where the latest entry and
the window head agree. -/
theorem latest_eq_window_head_witness :
    demoPub.latest (latestKey (.str "AAPL")) =
      (demoPub.ticks (tickKey (.str "AAPL"))).head? :=
  latest_eq_window_head 200 "2024-01-01T00:00:00" true (.str "AAPL") (.num 101)
    (.num 5) "T" emptyStore demoPub rfl

/-- C8: publishing the same Tick (same symbol, price, size) twice via the
latest-tick publish leaves the subsequent `get_latest_from_redis` read
returning that Tick — the `latest:` overwrite is idempotent. -/
theorem publish_latest_idempotent (cap : Nat) (t1 t2 : String) (S : String)
    (p : ℚ) (sz : ℤ) (st st1 st2 : Store)
    (_h1 : publish_tick cap t1 true (.str S) (.num p) (.num ((sz : ℚ))) "T" st
        = .ok st1)
    (h2 : publish_tick cap t2 true (.str S) (.num p) (.num ((sz : ℚ))) "T" st1
        = .ok st2)
    (hS : pyUpper S = S) :
    get_latest_from_redis st2 S = Option.some ⟨.str S, p, sz, t2 ++ "Z", "T"⟩ := by
  obtain ⟨p2, sz2, hp, hsz, _, hst⟩ :=
    publish_tick_ok cap t2 true (.str S) (.num p) (.num ((sz : ℚ))) "T" st1 st2 h2
  have hp2 : p = p2 := Except.ok.inj hp
  have hsz2 : truncQ ((sz : ℚ)) = sz2 := Except.ok.inj hsz
  rw [truncQ_intCast] at hsz2
  subst hst
  rw [get_latest_from_redis, hS]
  show (publishedStore cap t2 (.str S) p2 sz2 "T" st1).latest (latestKey (.str S))
      = _
  rw [publishedStore_latest, ← hp2, ← hsz2]

/-- C8 witness: a concrete double publish of the same tick, read back. -/
theorem publish_latest_idempotent_witness :
    get_latest_from_redis demoSt2 "AAPL" =
      Option.some ⟨.str "AAPL", 101, 5, "t0" ++ "Z", "T"⟩ :=
  publish_latest_idempotent 7 "t0" "t0" "AAPL" 101 5 emptyStore demoSt1 demoSt2
    rfl rfl (by decide)

/-- C10: every payload written by `publish_tick` gets the publication-time
clock with a trailing `"Z"` as its `ts`, and the outcome of `on_message`
is unchanged when the provider-supplied timestamp field of every array
element is erased — the handler never reads or propagates it. -/
theorem ts_is_publication_clock :
    (∀ (cap : Nat) (now : String) (av : Bool) (sym price size : PyVal)
        (ev : String) (st st2 : Store),
        publish_tick cap now av sym price size ev st = .ok st2 →
        ∃ pl : Payload, st2.log = st.log ++ [pl] ∧ pl.ts = now ++ "Z") ∧
    (∀ (cap : Nat) (now : String) (av : Bool) (st : Store) (msgs : List Elem),
        on_message cap now av st (.arr (msgs.map eraseTsElem)) =
          on_message cap now av st (.arr msgs)) := by
  constructor
  · intro cap now av sym price size ev st st2 h
    obtain ⟨p, sz, _, _, _, hst⟩ :=
      publish_tick_ok cap now av sym price size ev st st2 h
    subst hst
    exact ⟨⟨sym, p, sz, now ++ "Z", ev⟩,
      publishedStore_log cap now sym p sz ev st, rfl⟩
  · intro cap now av st msgs
    show processList cap now av st (msgs.map eraseTsElem)
        = processList cap now av st msgs
    induction msgs generalizing st with
    | nil => rfl
    | cons el rest ih =>
      cases el with
      | nonDict => rfl
      | dictE m =>
        simp only [List.map_cons, eraseTsElem, processList, eraseTs_ev,
          eraseTs_sym, eraseTs_ticker, eraseTs_p, eraseTs_price, eraseTs_s,
          eraseTs_size]
        by_cases hev : m.ev = PyVal.str "T"
        · rw [if_pos hev, if_pos hev]
          cases publish_tick cap now av (pyOr m.sym m.ticker) (pyOr m.p m.price)
              (pyOr (pyOr m.s m.size) (.num 1)) "T" st with
          | error e => rfl
          | ok st3 => exact ih st3
        · rw [if_neg hev, if_neg hev]
          exact ih st

/-- C10 witness: a concrete publish whose stored `ts` is the clock plus
`"Z"`, and a concrete array whose handling is unchanged by erasing the
provider timestamp field. -/
theorem ts_is_publication_clock_witness :
    (∃ pl : Payload, demoPub10.log = emptyStore.log ++ [pl] ∧
        pl.ts = "2024-02-02T00:00:00" ++ "Z") ∧
    on_message 3 "x" true emptyStore (.arr ([.dictE goodTrade].map eraseTsElem))
      = on_message 3 "x" true emptyStore (.arr [.dictE goodTrade]) :=
  ⟨ts_is_publication_clock.1 3 "2024-02-02T00:00:00" true (.str "TSLA")
      (.num 250) (.num 2) "T" emptyStore demoPub10 rfl,
    ts_is_publication_clock.2 3 "x" true emptyStore [.dictE goodTrade]⟩

/-- C5 counterexample: a trade event whose provider symbol is `" aapl"`
is published with symbol `" aapl"` verbatim, which differs from the
upper-cased and trimmed form `"AAPL"` the claim requires. -/
theorem published_symbol_not_uppercased :
    (on_message 200 "now" true emptyStore (.arr [.dictE lowerMsg])).log.map
        Payload.symbol = [PyVal.str " aapl"] ∧
    pyUpper (pyStrip " aapl") = "AAPL" ∧
    PyVal.str " aapl" ≠ PyVal.str "AAPL" := by
  refine ⟨by decide, by decide, by decide⟩

/-- C5 amended: for every accepted trade event, the published Tick's
symbol is exactly the provider-supplied symbol value (`msg.get("sym") or
msg.get("ticker")`), with no upper-casing and no trimming. -/
theorem published_symbol_verbatim (cap : Nat) (now : String) (st : Store)
    (m : RawMsg) (p : ℚ) (sz : ℤ)
    (hev : m.ev = PyVal.str "T")
    (hp : pyFloat (pyOr m.p m.price) = .ok p)
    (hs : pyInt (pyOr (pyOr m.s m.size) (.num 1)) = .ok sz) :
    (on_message cap now true st (.arr [.dictE m])).log =
      st.log ++ [⟨pyOr m.sym m.ticker, p, sz, now ++ "Z", "T"⟩] := by
  show (processList cap now true st [.dictE m]).log = _
  simp only [processList, if_pos hev, publish_tick, hp, hs, if_true]
  exact publishedStore_log cap now (pyOr m.sym m.ticker) p sz "T" st

/-- C5 amended witness: the concrete lower-case event is published with
its symbol unchanged. -/
theorem published_symbol_verbatim_witness :
    (on_message 200 "now" true emptyStore (.arr [.dictE lowerMsg])).log =
      emptyStore.log ++ [⟨pyOr lowerMsg.sym lowerMsg.ticker, 105, 1,
        "now" ++ "Z", "T"⟩] :=
  published_symbol_verbatim 200 "now" emptyStore lowerMsg 105 1 rfl rfl rfl

/-- C1 counterexample: an array holding one malformed trade event (missing
price) before one well-formed trade event publishes zero Ticks, not one:
the exception from the malformed element aborts the whole batch. -/
theorem onMessage_malformed_first_aborts_batch :
    (on_message 200 "now" true emptyStore
        (.arr [.dictE badTrade, .dictE goodTrade])).log.length = 0 := by
  decide

/-- C1 amended: for an array of one well-formed and one malformed trade
event, exactly one Tick is published when the well-formed event comes
first, and zero Ticks are published when the malformed event comes first
(the batch-level `except` abandons the rest of the array). -/
theorem onMessage_batch_order_dependent (cap : Nat) (now : String) (st : Store)
    (good bad : RawMsg) (p : ℚ) (sz : ℤ) (err : String)
    (hgev : good.ev = PyVal.str "T")
    (hgp : pyFloat (pyOr good.p good.price) = .ok p)
    (hgs : pyInt (pyOr (pyOr good.s good.size) (.num 1)) = .ok sz)
    (hbev : bad.ev = PyVal.str "T")
    (hbp : pyFloat (pyOr bad.p bad.price) = .error err) :
    (on_message cap now true st (.arr [.dictE good, .dictE bad])).log.length
        = st.log.length + 1 ∧
    (on_message cap now true st (.arr [.dictE bad, .dictE good])).log.length
        = st.log.length := by
  constructor
  · show (processList cap now true st [.dictE good, .dictE bad]).log.length = _
    simp only [processList, if_pos hgev, if_pos hbev, publish_tick, hgp, hgs,
      hbp, if_true]
    rw [publishedStore_log]
    simp
  · show (processList cap now true st [.dictE bad, .dictE good]).log.length = _
    simp only [processList, if_pos hbev, publish_tick, hbp]

/-- C1 amended witness: the concrete good/bad pair in both orders. -/
theorem onMessage_batch_order_dependent_witness :
    (on_message 200 "now" true emptyStore
        (.arr [.dictE goodTrade, .dictE badTrade])).log.length
      = emptyStore.log.length + 1 ∧
    (on_message 200 "now" true emptyStore
        (.arr [.dictE badTrade, .dictE goodTrade])).log.length
      = emptyStore.log.length :=
  onMessage_batch_order_dependent 200 "now" emptyStore goodTrade badTrade 101 3
    "TypeError: float() argument is None" rfl rfl rfl rfl rfl

theorem publishSeq_ok_window (cap : Nat) (hcap : 1 ≤ cap) (now sym : String)
    (items : List (ℚ × ℤ)) :
    ∀ st : Store,
      ∃ st2, publishSeq cap now sym st items = .ok st2 ∧
        st2.ticks (tickKey (.str sym)) =
          windowAfter cap (st.ticks (tickKey (.str sym)))
            (items.map (payloadOf now sym)) := by
  induction items with
  | nil => exact fun st => ⟨st, rfl, rfl⟩
  | cons it rest ih =>
    intro st
    obtain ⟨pr, sz⟩ := it
    have hpub : publish_tick cap now true (.str sym) (.num pr) (.num ((sz : ℚ)))
        "T" st = .ok (publishedStore cap now (.str sym) pr (truncQ ((sz : ℚ)))
          "T" st) := rfl
    obtain ⟨st2, hseq, hwin⟩ :=
      ih (publishedStore cap now (.str sym) pr (truncQ ((sz : ℚ))) "T" st)
    refine ⟨st2, ?_, ?_⟩
    · simp only [publishSeq, hpub]
      exact hseq
    · rw [hwin]
      have htk : (publishedStore cap now (.str sym) pr (truncQ ((sz : ℚ))) "T"
            st).ticks (tickKey (.str sym))
          = ((payloadOf now sym (pr, sz)) :: st.ticks (tickKey (.str sym))).take
              cap := by
        rw [publishedStore_ticks, ltrim_take cap hcap]
        rfl
      rw [htk]
      rfl

theorem windowAfter_eq_take (cap : Nat) :
    ∀ (pls : List Payload) (w : List Payload), pls ≠ [] →
      windowAfter cap w pls = (pls.reverse ++ w).take cap := by
  intro pls
  induction pls with
  | nil => exact fun w h => absurd rfl h
  | cons x rest ih =>
    intro w _
    show windowAfter cap ((x :: w).take cap) rest = _
    rcases eq_or_ne rest ([] : List Payload) with hr | hr
    · subst hr
      simp [windowAfter]
    · rw [ih ((x :: w).take cap) hr, take_append_take]
      congr 1
      simp

/-- C3 counterexample: with configured capacity 0 the trim becomes
`LTRIM ticks:.. 0 -1`, which keeps the whole list, so after one publish
the window has length 1, not `min 1 0 = 0`. -/
theorem window_capacity_zero_untrimmed :
    (publishSeq 0 "now" "AAPL" emptyStore [(101, 1)]).map
        (fun st => (st.ticks (tickKey (.str "AAPL"))).length) = .ok 1 ∧
    min 1 0 = 0 := by
  exact ⟨rfl, rfl⟩

/-- C3 amended: for every configured capacity `C` of at least 1, after
publishing `N` ticks for a symbol the window has length `min N C` and
holds exactly the `C` most recently published ticks, most recent first
(so its length never exceeds `C`); for capacity 0 the trim is a no-op
and the window grows unboundedly. -/
theorem window_min_len_recent_first (cap : Nat) (hcap : 1 ≤ cap)
    (now sym : String) (items : List (ℚ × ℤ)) :
    ∃ st2 : Store, publishSeq cap now sym emptyStore items = .ok st2 ∧
      st2.ticks (tickKey (.str sym)) =
        ((items.map (payloadOf now sym)).reverse).take cap ∧
      (st2.ticks (tickKey (.str sym))).length = min items.length cap := by
  obtain ⟨st2, hseq, hwin⟩ := publishSeq_ok_window cap hcap now sym items emptyStore
  have hw : st2.ticks (tickKey (.str sym)) =
      ((items.map (payloadOf now sym)).reverse).take cap := by
    rw [hwin]
    rcases eq_or_ne items ([] : List (ℚ × ℤ)) with h | h
    · subst h
      simp [windowAfter, emptyStore]
    · have hne : items.map (payloadOf now sym) ≠ [] := by
        simpa using h
      rw [windowAfter_eq_take cap _ _ hne]
      show _ = _
      have : emptyStore.ticks (tickKey (.str sym)) = [] := rfl
      rw [this, List.append_nil]
  refine ⟨st2, hseq, hw, ?_⟩
  rw [hw, List.length_take, List.length_reverse, List.length_map, Nat.min_comm]

/-- C3 amended witness: three publishes into a window of capacity 2. -/
theorem window_min_len_recent_first_witness :
    ∃ st2 : Store,
      publishSeq 2 "t" "A" emptyStore [((1 : ℚ), (1 : ℤ)), (2, 1), (3, 1)]
        = .ok st2 ∧
      st2.ticks (tickKey (.str "A")) =
        (([((1 : ℚ), (1 : ℤ)), (2, 1), (3, 1)].map (payloadOf "t" "A")).reverse).take 2 ∧
      (st2.ticks (tickKey (.str "A"))).length =
        min [((1 : ℚ), (1 : ℤ)), (2, 1), (3, 1)].length 2 :=
  window_min_len_recent_first 2 (by norm_num) "t" "A"
    [((1 : ℚ), (1 : ℤ)), (2, 1), (3, 1)]

/-- C2 counterexample: with the store down in round 0 and back up from
round 1 on, the run of 2 rounds does not survive and resume — the first
failed publish raises `StoreUnavailable` out of the loop and the run
ends in that error. -/
theorem simulate_store_down_terminates_run :
    simulate_ticks 200 (fun _ => 0) "now" (fun i => decide (1 ≤ i)) ["AAPL"] 2
      = .error "StoreUnavailable" := rfl

/-- C2 amended: whenever the store is unreachable in the first observed
round and the watchlist is non-empty, `simulate_ticks` terminates at the
first failed publish with the raised `StoreUnavailable` — the failure is
not contained and publication never resumes within the run. -/
theorem simulate_store_failure_raises (cap : Nat) (draw : Nat → ℚ)
    (now : String) (avail : Nat → Bool) (s0 : String) (rest : List String)
    (k : Nat) (ha : avail 0 = false) (hk : 1 ≤ k) :
    simulate_ticks cap draw now avail (s0 :: rest) k
      = .error "StoreUnavailable" := by
  obtain ⟨k2, rfl⟩ : ∃ k2, k = k2 + 1 := ⟨k - 1, by omega⟩
  show simRunAux cap draw now avail (s0 :: rest) 0 (k2 + 1)
      (initBase draw (s0 :: rest)) emptyStore = _
  simp only [simRunAux, simRound, simSym, publish_tick, pyFloat, pyInt, ha,
    Bool.false_eq_true, if_false]

/-- C2 amended witness: one round with the store down. -/
theorem simulate_store_failure_raises_witness :
    simulate_ticks 200 (fun _ => 0) "now" (fun _ => false) ["A"] 1
      = .error "StoreUnavailable" :=
  simulate_store_failure_raises 200 (fun _ => 0) "now" (fun _ => false) "A" [] 1
    rfl (by norm_num)

/-- C6 amended: runs of the simulated feed are reproducible — the same
PRNG stream, watchlist, clock and store availability give identical
runs, hence identical per-symbol price sequences; but the per-symbol
series is not decoupled from the rest of the watchlist (see the
counterexample: all symbols consume one shared PRNG stream). -/
theorem sim_reproducible_same_seed (cap : Nat) (d1 d2 : Nat → ℚ)
    (now : String) (watch : List String) (k : Nat) (h : ∀ n, d1 n = d2 n) :
    simulate_ticks cap d1 now availTrue watch k =
      simulate_ticks cap d2 now availTrue watch k := by
  rw [show d1 = d2 from funext h]

/-- C6 amended witness: two runs over the same concrete stream. -/
theorem sim_reproducible_same_seed_witness :
    simulate_ticks 200 demoDraw "t" availTrue ["AAPL", "MSFT"] 3 =
      simulate_ticks 200 demoDraw "t" availTrue ["AAPL", "MSFT"] 3 :=
  sim_reproducible_same_seed 200 demoDraw demoDraw "t" ["AAPL", "MSFT"] 3
    (fun _ => rfl)

/-- C6 counterexample: with the same PRNG stream, the price series for
symbol `"A"` differs between watchlist `["A"]` (first round price 100)
and watchlist `["B", "A"]` (first round price 148.5): the symbols share
one PRNG stream, so one symbol's series depends on the other symbols. -/
theorem sim_price_series_watchlist_coupled :
    pricesFor "A" (simulate_ticks 200 demoDraw "t" availTrue ["A"] 1)
      = [(100 : ℚ)] ∧
    pricesFor "A" (simulate_ticks 200 demoDraw "t" availTrue ["B", "A"] 1)
      = [(1485 : ℚ) / 10] ∧
    (100 : ℚ) ≠ (1485 : ℚ) / 10 := by
  refine ⟨?_, ?_, by norm_num⟩
  · simp only [simulate_ticks, simRunAux, simRound, simSym, initBase,
      List.foldl, setBase, getBase, publish_tick, pyFloat, pyInt, availTrue,
      publishedStore, pricesFor, emptyStore, demoDraw, List.filter,
      List.map, List.nil_append, List.append_nil]
    norm_num [round2, round_eq]
  · simp only [simulate_ticks, simRunAux, simRound, simSym, initBase,
      List.foldl, setBase, getBase, publish_tick, pyFloat, pyInt, availTrue,
      publishedStore, pricesFor, emptyStore, demoDraw, List.filter,
      List.map, List.nil_append, List.append_nil]
    norm_num [round2, round_eq]
    simp [getBase, List.filter_cons, List.filter_nil]
    norm_num
